import Mathlib

/-!
Verification development for the TradingApp dual-pane chart view controller
(`src/ui/src/lib/charts.ts`).

The rendering engine (lightweight-charts) is external to the repository and is
treated, as in the design document, as an opaque surface exposing
set-data / visible-range / crosshair primitives.  It is modelled here by plain
state cells:

* a `Surface` stores the last view operation applied to its time scale
  (`fitted`, or an explicit `ranged` window) plus a disposed flag;
* setting the primary surface's visible range (by `setVisibleRange`,
  `setVisibleLogicalRange` or `fitContent`) notifies the controller's
  `subscribeVisibleTimeRangeChange` handler with the new range.  The code
  itself depends on this notification semantics: `zoomIn` never writes
  `savedTimeRange` directly and instead relies on the subscription to record
  the new range, and the handler's `if (!this.isFirstLoad)` guard exists
  precisely because the initial programmatic `fitContent` fires it.
  Time/logical coordinate conversion inside the engine is collapsed to the
  identity on the stored range value (refreshes append candles on the right,
  so the conversion round-trips on an unchanged prefix);
* JavaScript numbers are modelled as exact rationals (`Rat`);
* `JSON.parse` of a persisted entry either throws (`malformed`), or yields a
  JavaScript value which the engine's `setVisibleRange` accepts exactly when
  it is a well-formed `{from,to}` range;
* `localStorage` is a string-keyed map, threaded through every operation.
-/

namespace TradingApp

/-- `IndicatorData` (charts.ts lines 13-16): one point of an overlay series. -/
structure IndicatorData where
  time : Rat
  value : Rat
deriving DecidableEq, Repr

/-- `ChartData` (charts.ts lines 4-11): one OHLCV bar handed to the
candlestick series. -/
structure ChartData where
  time : Rat
  open_ : Rat
  high : Rat
  low : Rat
  close : Rat
  volume : Rat
deriving DecidableEq, Repr

/-- A volume-histogram point as built in `updateData` (line 575): value plus
the up/down color chosen by `close >= open`. -/
structure VolumePoint where
  time : Rat
  value : Rat
  color : String
deriving DecidableEq, Repr

/-- `Candle` (src/ui/src/lib/api.ts): the OHLCV record with nine
independently-optional indicator fields. -/
structure Candle where
  time : Rat
  open_ : Rat
  high : Rat
  low : Rat
  close : Rat
  volume : Rat
  ema_9 : Option Rat := none
  ema_21 : Option Rat := none
  rsi : Option Rat := none
  bb_upper : Option Rat := none
  bb_middle : Option Rat := none
  bb_lower : Option Rat := none
  vwap : Option Rat := none
  atr : Option Rat := none
  rvol : Option Rat := none
deriving DecidableEq, Repr

/-- Domain of a `{from,to}` view range: time-domain seconds or logical bar
index (spec section 3, `ViewRange`). -/
inductive RangeDom where
  | time
  | logical
deriving DecidableEq, Repr

/-- A `{from,to}` pair as stored in `savedTimeRange`, persisted entries and
visible-range calls.  `from` is a Lean keyword, hence `from_` / `to_`. -/
structure VisRange where
  dom : RangeDom
  from_ : Rat
  to_ : Rat
deriving DecidableEq, Repr

/-- The JavaScript value held by the untyped `savedTimeRange : any` field
(charts.ts line 377) and produced by `JSON.parse` of a persisted entry:
`null`, a well-formed range, or some other parsed value (for example `{}`)
that is not a usable range. -/
inductive JSVal where
  | jsNull
  | jsRange (r : VisRange)
  | jsOther
deriving DecidableEq, Repr

/-- JavaScript truthiness of the values `savedTimeRange` can hold: `null` is
falsy, every parsed object (well-formed range or not) is truthy. -/
def JSVal.truthy : JSVal → Bool
  | .jsNull => false
  | _ => true

/-- A raw `localStorage` entry: either a string `JSON.parse` throws on, or one
that parses to the given JavaScript value. -/
inductive RawEntry where
  | malformed
  | val (v : JSVal)
deriving DecidableEq, Repr

/-- The persistence store (`localStorage`): a key-to-entry map with the
`get / set / delete` contract of spec section 4.4. -/
abbrev Storage := String → Option RawEntry

def Storage.setItem (st : Storage) (k : String) (v : RawEntry) : Storage :=
  fun k2 => if k2 = k then some v else st k2

def Storage.removeItem (st : Storage) (k : String) : Storage :=
  fun k2 => if k2 = k then none else st k2

def emptyStorage : Storage := fun _ => none

/-- The view state of one rendering surface's time scale: untouched since
construction, fitted to the full data extent, or set to an explicit range. -/
inductive ViewSt where
  | unset
  | fitted
  | ranged (r : VisRange)
deriving DecidableEq, Repr

/-- One opaque rendering surface (an `IChartApi` handle). -/
structure Surface where
  view : ViewSt := .unset
  autoScale : Bool := true
  disposed : Bool := false
deriving DecidableEq, Repr

/-- `IChartApi.remove()`: disposes the surface; calling it on an
already-disposed surface throws (the reason `LineChart.destroy` wraps both
calls in try/catch, charts.ts lines 354-361). -/
def Surface.remove (s : Surface) : Except String Surface :=
  if s.disposed then .error "Object is disposed" else .ok { s with disposed := true }

/-- The overlay-series derivation used for all seven indicator overlays in
`updateIndicators` (charts.ts lines 598-619):
`candles.filter(c => c.f !== undefined).map(c => ({time: c.time, value: c.f!}))`.
The non-null assertion `c.f!` is total on the filtered list, rendered here as
`Option.getD`. -/
def overlaySeries (field : Candle → Option Rat) (candles : List Candle) :
    List IndicatorData :=
  (candles.filter (fun c => (field c).isSome)).map
    (fun c => { time := c.time, value := (field c).getD 0 })

/-- The `TradingChart` controller state (charts.ts lines 364-382): the two
owned surfaces, the rendered series, and the per-instance view flags.
The marker cache and the two static RSI guide-line series are omitted: no
claim under verification touches them. -/
structure TradingChart where
  chart : Surface := {}
  rsiChart : Surface := {}
  candlestickSeries : List ChartData := []
  volumeSeries : List VolumePoint := []
  ema9Series : List IndicatorData := []
  ema21Series : List IndicatorData := []
  vwapSeries : List IndicatorData := []
  bbUpperSeries : List IndicatorData := []
  bbMiddleSeries : List IndicatorData := []
  bbLowerSeries : List IndicatorData := []
  rsiSeries : List IndicatorData := []
  isFirstLoad : Bool := true
  savedTimeRange : JSVal := .jsNull
  userHasZoomed : Bool := false
  zoomPersistKey : Option String := none
  wheelZoomEnabled : Bool := true
  dragPanEnabled : Bool := true
deriving DecidableEq, Repr

/-- A freshly constructed controller (constructor, charts.ts lines 384-452). -/
def TradingChart.init : TradingChart := {}

/-- The `subscribeVisibleTimeRangeChange` handler installed on the primary
surface's time scale (charts.ts lines 512-523): record the new range in
`savedTimeRange`, flag `userHasZoomed` unless still in first load, and persist
the range under the active key. -/
def TradingChart.onVisibleTimeRangeChange (tc : TradingChart) (st : Storage)
    (timeRange : Option VisRange) : TradingChart × Storage :=
  match timeRange with
  | none => (tc, st)
  | some r =>
    let tc := { tc with savedTimeRange := .jsRange r }
    let tc := if tc.isFirstLoad then tc else { tc with userHasZoomed := true }
    match tc.zoomPersistKey with
    | some k => (tc, st.setItem ("zoom:" ++ k) (.val (.jsRange r)))
    | none => (tc, st)

/-- The engine applying a new visible range to the primary surface and firing
the visible-time-range-change subscription with it. -/
def TradingChart.applyMainRange (tc : TradingChart) (st : Storage)
    (r : VisRange) : TradingChart × Storage :=
  TradingChart.onVisibleTimeRangeChange
    { tc with chart := { tc.chart with view := .ranged r } } st (some r)

/-- `this.chart.timeScale().setVisibleRange(v)` on an arbitrary JavaScript
value: the engine accepts a well-formed `{from,to}` range and throws on
anything else (`null`, `{}`, ...). -/
def TradingChart.setMainVisibleRange (tc : TradingChart) (st : Storage)
    (v : JSVal) : Except Unit (TradingChart × Storage) :=
  match v with
  | .jsRange r => .ok (tc.applyMainRange st r)
  | _ => .error ()

/-- `this.rsiChart.timeScale().setVisibleRange(v)`: the companion surface has
no range subscription, it only mirrors. -/
def TradingChart.setRsiVisibleRange (tc : TradingChart) (v : JSVal) :
    Except Unit TradingChart :=
  match v with
  | .jsRange r => .ok { tc with rsiChart := { tc.rsiChart with view := .ranged r } }
  | _ => .error ()

/-- The full time extent of the data currently on the primary surface: what
`fitContent` fits to (and what the subscription is notified with). -/
def fullExtent (l : List ChartData) : Option VisRange :=
  match l.head?, l.getLast? with
  | some a, some b => some { dom := .time, from_ := a.time, to_ := b.time }
  | _, _ => none

/-- `this.chart.timeScale().fitContent()`: fit the primary surface and notify
the range subscription with the resulting full-extent range (nothing fires
when the surface holds no data). -/
def TradingChart.mainFitContent (tc : TradingChart) (st : Storage) :
    TradingChart × Storage :=
  let tc := { tc with chart := { tc.chart with view := .fitted } }
  tc.onVisibleTimeRangeChange st (fullExtent tc.candlestickSeries)

/-- `this.rsiChart.timeScale().fitContent()`. -/
def TradingChart.rsiFitContent (tc : TradingChart) : TradingChart :=
  { tc with rsiChart := { tc.rsiChart with view := .fitted } }

/-- `this.chart.timeScale().getVisibleLogicalRange()`: the current window in
bar-index coordinates.  Available when the last view operation set a logical
range; for fitted or time-set views the engine's read-back depends on the
rendered data and is modelled as unavailable. -/
def TradingChart.getVisibleLogicalRange (tc : TradingChart) : Option VisRange :=
  match tc.chart.view with
  | .ranged r => if r.dom = .logical then some r else none
  | _ => none

/-- `setZoomPersistenceKey` (charts.ts lines 539-552): record the key, then
try to restore: read the raw entry, parse it, store it into `savedTimeRange`,
flag `userHasZoomed`, and apply it to both surfaces.  Any throw along the way
is swallowed, keeping whatever mutations already happened. -/
def TradingChart.setZoomPersistenceKey (tc : TradingChart) (st : Storage)
    (key : String) : TradingChart × Storage :=
  let tc := { tc with zoomPersistKey := some key }
  match st ("zoom:" ++ key) with
  | none => (tc, st)
  | some .malformed => (tc, st)
  | some (.val rng) =>
    let tc := { tc with savedTimeRange := rng, userHasZoomed := true }
    match tc.setMainVisibleRange st rng with
    | .error _ => (tc, st)
    | .ok (tc2, st2) =>
      match tc2.setRsiVisibleRange rng with
      | .error _ => (tc2, st2)
      | .ok tc3 => (tc3, st2)

/-- The series-replacement half of `updateData` (charts.ts lines 563-576):
full candlestick series plus the volume histogram with up/down colors. -/
def TradingChart.setPriceAndVolume (tc : TradingChart) (candles : List Candle) :
    TradingChart :=
  { tc with
    candlestickSeries := candles.map (fun c =>
      { time := c.time, open_ := c.open_, high := c.high, low := c.low,
        close := c.close, volume := c.volume }),
    volumeSeries := candles.map (fun c =>
      { time := c.time, value := c.volume,
        color := if c.close >= c.open_ then "#10b98180" else "#ef444480" }) }

/-- `updateIndicators` (charts.ts lines 598-619): each overlay is replaced
only when its filtered series is non-empty (`if (data.length) setData(data)`),
otherwise the previously rendered data is left as is. -/
def TradingChart.updateIndicators (tc : TradingChart) (candles : List Candle) :
    TradingChart :=
  let ema9Data := overlaySeries (fun c => c.ema_9) candles
  let tc := if ema9Data.isEmpty then tc else { tc with ema9Series := ema9Data }
  let ema21Data := overlaySeries (fun c => c.ema_21) candles
  let tc := if ema21Data.isEmpty then tc else { tc with ema21Series := ema21Data }
  let vwapData := overlaySeries (fun c => c.vwap) candles
  let tc := if vwapData.isEmpty then tc else { tc with vwapSeries := vwapData }
  let bbU := overlaySeries (fun c => c.bb_upper) candles
  let tc := if bbU.isEmpty then tc else { tc with bbUpperSeries := bbU }
  let bbM := overlaySeries (fun c => c.bb_middle) candles
  let tc := if bbM.isEmpty then tc else { tc with bbMiddleSeries := bbM }
  let bbL := overlaySeries (fun c => c.bb_lower) candles
  let tc := if bbL.isEmpty then tc else { tc with bbLowerSeries := bbL }
  let rsiData := overlaySeries (fun c => c.rsi) candles
  if rsiData.isEmpty then tc else { tc with rsiSeries := rsiData }

/-- The view-fit policy at the end of `updateData` (charts.ts lines 581-595):
if the user has zoomed and a saved range exists, reapply it to both surfaces
(exceptions swallowed) and return; otherwise fit both surfaces once on first
load. -/
def TradingChart.applyViewPolicy (tc : TradingChart) (st : Storage) :
    TradingChart × Storage :=
  if tc.userHasZoomed && tc.savedTimeRange.truthy then
    match tc.setMainVisibleRange st tc.savedTimeRange with
    | .error _ => (tc, st)
    | .ok (tc2, st2) =>
      match tc2.setRsiVisibleRange tc2.savedTimeRange with
      | .error _ => (tc2, st2)
      | .ok tc3 => (tc3, st2)
  else if tc.isFirstLoad then
    let p := tc.mainFitContent st
    let tc2 := p.1.rsiFitContent
    ({ tc2 with isFirstLoad := false }, p.2)
  else (tc, st)

/-- `updateData` (charts.ts lines 560-596): no-op on an empty sequence, else
replace price/volume series, refresh overlays, then apply the view policy. -/
def TradingChart.updateData (tc : TradingChart) (st : Storage)
    (candles : List Candle) : TradingChart × Storage :=
  if candles.isEmpty then (tc, st)
  else ((tc.setPriceAndVolume candles).updateIndicators candles).applyViewPolicy st

/-- `zoomIn` (charts.ts lines 644-654): shrink the visible logical width to
`max 20 (width * 0.7)` recentered on the previous midpoint; no-op at or below
20 bars or when no logical range is available. -/
def TradingChart.zoomIn (tc : TradingChart) (st : Storage) :
    TradingChart × Storage :=
  match tc.getVisibleLogicalRange with
  | none => (tc, st)
  | some range =>
    let current := range.to_ - range.from_
    if current ≤ 20 then (tc, st)
    else
      let newRange := max 20 (current * (7 / 10))
      let center := (range.from_ + range.to_) / 2
      let p := tc.applyMainRange st
        { dom := .logical, from_ := center - newRange / 2, to_ := center + newRange / 2 }
      ({ p.1 with userHasZoomed := true }, p.2)

/-- `zoomOut` (charts.ts lines 656-665): grow the visible logical width to
`min (width * 1.4) 5000` recentered on the previous midpoint. -/
def TradingChart.zoomOut (tc : TradingChart) (st : Storage) :
    TradingChart × Storage :=
  match tc.getVisibleLogicalRange with
  | none => (tc, st)
  | some range =>
    let current := range.to_ - range.from_
    let newRange := min (current * (14 / 10)) 5000
    let center := (range.from_ + range.to_) / 2
    let p := tc.applyMainRange st
      { dom := .logical, from_ := center - newRange / 2, to_ := center + newRange / 2 }
    ({ p.1 with userHasZoomed := true }, p.2)

/-- `fitContent` (charts.ts lines 667-685): clear the zoom flags, delete the
persisted entry for the active key, fit both surfaces and re-enable price
auto-scaling. -/
def TradingChart.fitContent (tc : TradingChart) (st : Storage) :
    TradingChart × Storage :=
  let tc := { tc with userHasZoomed := false, savedTimeRange := .jsNull }
  let st := match tc.zoomPersistKey with
    | some k => st.removeItem ("zoom:" ++ k)
    | none => st
  let p := tc.mainFitContent st
  let tc2 := p.1.rsiFitContent
  ({ tc2 with chart := { tc2.chart with autoScale := true } }, p.2)

/-- `destroy` (charts.ts lines 697-700): remove both surfaces, with no
try/catch — a throw from the engine propagates. -/
def TradingChart.destroy (tc : TradingChart) : Except String TradingChart := do
  let c ← tc.chart.remove
  let r ← tc.rsiChart.remove
  pure { tc with chart := c, rsiChart := r }

/-- An engine-driven visible-range change on the primary surface (mouse-wheel
zoom, pinch or drag-pan, enabled by the default interaction options,
charts.ts lines 526-537): the engine moves the view and notifies the range
subscription. -/
def TradingChart.engineUserRangeChange (tc : TradingChart) (st : Storage)
    (r : VisRange) : TradingChart × Storage :=
  tc.applyMainRange st r

/-- The `LineChart` controller (charts.ts lines 18-362, the close-only
visualization mode).  Its data and zoom members duplicate `TradingChart`'s;
the only member whose behavior differs and is under verification is
`destroy`, so the state is restricted to the two owned surfaces. -/
structure LineChart where
  chart : Surface := {}
  rsiChart : Surface := {}
deriving DecidableEq, Repr

def LineChart.init : LineChart := {}

/-- `LineChart.destroy` (charts.ts lines 354-361): both removes sit inside a
try/catch; a throw is caught and logged, never propagated. -/
def LineChart.destroy (lc : LineChart) : LineChart :=
  match lc.chart.remove with
  | .error _ => lc
  | .ok c =>
    match lc.rsiChart.remove with
    | .error _ => { lc with chart := c }
    | .ok r => { lc with chart := c, rsiChart := r }

/-- A crosshair-move event as delivered by the engine: a time coordinate (or
`undefined` when the pointer left the pane) and an optional pixel x. -/
structure CrosshairEvent where
  time : Option Rat
  pointX : Option Rat
deriving DecidableEq, Repr

/-- Which pane an event fired on. -/
inductive Pane where
  | main
  | rsi
deriving DecidableEq, Repr

def Pane.other : Pane → Pane
  | .main => .rsi
  | .rsi => .main

/-- What a crosshair-move handler does in response to one event. -/
inductive CrosshairAction where
  | setPosition (target : Pane) (x : Rat) (y : Rat) (t : Rat)
  | clearPosition (target : Pane)
  | ignore
deriving DecidableEq, Repr

/-- The two `subscribeCrosshairMove` handlers of `setupEventHandlers`
(charts.ts lines 496-509, and identically lines 161-176 for `LineChart`):
on a defined time, `other.setCrosshairPosition(param.point?.x ?? 0, 0, t)`;
otherwise `other.clearCrosshairPosition()`.  The handlers are pure functions
of the event alone — there is no state and no tag of bridge-originated
positions. -/
def crosshairMoveHandler (p : Pane) (e : CrosshairEvent) : CrosshairAction :=
  match e.time with
  | some t => .setPosition p.other (e.pointX.getD 0) 0 t
  | none => .clearPosition p.other

/-- A zoom-button press, for iterating `zoomIn`/`zoomOut` sequences. -/
inductive ZoomOp where
  | zin
  | zout
deriving DecidableEq, Repr

def applyZoomOp (op : ZoomOp) (p : TradingChart × Storage) :
    TradingChart × Storage :=
  match op with
  | .zin => p.1.zoomIn p.2
  | .zout => p.1.zoomOut p.2

def applyZoomOps (ops : List ZoomOp) (p : TradingChart × Storage) :
    TradingChart × Storage :=
  ops.foldl (fun q op => applyZoomOp op q) p

/-- The visible logical width is between 20 and 5000 bars (vacuously true when
no logical range is current). -/
def logicalWidthOk (tc : TradingChart) : Bool :=
  match tc.getVisibleLogicalRange with
  | none => true
  | some r => decide (20 ≤ r.to_ - r.from_) && decide (r.to_ - r.from_ ≤ 5000)

/-- The candle sequence has strictly ascending times. -/
def ascendingB : List Candle → Bool
  | [] => true
  | [_] => true
  | a :: b :: rest => decide (a.time < b.time) && ascendingB (b :: rest)

/-- A plain OHLCV candle at time `t` with no indicator fields. -/
def sampleCandle (t : Rat) : Candle :=
  { time := t, open_ := 1, high := 2, low := 1, close := 2, volume := 3 }

/-- The first example candle of spec section 8: `{t:1, close:10}`. -/
def exCandle1 : Candle :=
  { time := 1, open_ := 10, high := 10, low := 10, close := 10, volume := 0 }

/-- The second example candle of spec section 8: `{t:2, close:11, rsi:55}`. -/
def exCandle2 : Candle :=
  { time := 2, open_ := 11, high := 11, low := 11, close := 11, volume := 0,
    rsi := some 55 }

/-- A storage holding one well-formed persisted range, as in the spec's
restore example. -/
def exampleStorage : Storage :=
  emptyStorage.setItem "zoom:AAPL:1d:candlestick"
    (.val (.jsRange { dom := .time, from_ := 1000, to_ := 2000 }))

/-- A storage whose entry under key `K` parses to a value that is not a
usable `{from,to}` range (for example the raw string `"{}"`). -/
def corruptStorage : Storage := emptyStorage.setItem "zoom:K" (.val .jsOther)

/-- A storage whose entry under key `K` is a string `JSON.parse` throws on. -/
def malformedStorage : Storage := emptyStorage.setItem "zoom:K" .malformed

/-- A controller in `USER_ZOOMED` holding the saved time range 1000..2000. -/
def userZoomedState : TradingChart :=
  { TradingChart.init with
    userHasZoomed := true,
    savedTimeRange := .jsRange { dom := .time, from_ := 1000, to_ := 2000 } }

/-- A controller whose primary surface shows the 100-bar logical window
0..100 (set by a user wheel gesture). -/
def zoomWitnessState : TradingChart :=
  (TradingChart.init.engineUserRangeChange emptyStorage
    { dom := .logical, from_ := 0, to_ := 100 }).1

/-- A controller whose primary surface shows a 10000-bar logical window
(for instance after wheel-zooming far out on a long history). -/
def wideZoomState : TradingChart :=
  (TradingChart.init.engineUserRangeChange emptyStorage
    { dom := .logical, from_ := 0, to_ := 10000 }).1

/-- A controller whose primary surface shows a 10-bar logical window. -/
def narrowZoomState : TradingChart :=
  (TradingChart.init.engineUserRangeChange emptyStorage
    { dom := .logical, from_ := 0, to_ := 10 }).1

/-- A controller with a previously rendered EMA-9 overlay. -/
def presetOverlayState : TradingChart :=
  { TradingChart.init with ema9Series := [{ time := 1, value := 50 }] }

/-- Scenario for the `fitContent` round-trip: a fresh controller gets the key
(nothing stored yet)... -/
def fitDemoKeyed : TradingChart × Storage :=
  TradingChart.init.setZoomPersistenceKey emptyStorage "AAPL:1d:candlestick"

/-- ...loads two candles at times 1000 and 2000 (first-load fit)... -/
def fitDemoLoaded : TradingChart × Storage :=
  fitDemoKeyed.1.updateData fitDemoKeyed.2 [sampleCandle 1000, sampleCandle 2000]

/-- ...the user zooms (engine gesture on the primary surface)... -/
def fitDemoZoomed : TradingChart × Storage :=
  fitDemoLoaded.1.engineUserRangeChange fitDemoLoaded.2
    { dom := .logical, from_ := 0, to_ := 100 }

/-- ...and then presses the fit-content control. -/
def fitDemoFit : TradingChart × Storage :=
  fitDemoZoomed.1.fitContent fitDemoZoomed.2

/-- A fresh controller restoring the key whose stored entry parses but is not
a usable range. -/
def corruptRestored : TradingChart × Storage :=
  TradingChart.init.setZoomPersistenceKey corruptStorage "K"

/-- The first data refresh after the corrupt restore. -/
def corruptThenUpdate : TradingChart × Storage :=
  corruptRestored.1.updateData corruptRestored.2 [sampleCandle 1000]

/-- A fresh controller restoring the key whose stored entry does not parse. -/
def malformedRestored : TradingChart × Storage :=
  TradingChart.init.setZoomPersistenceKey malformedStorage "K"

/-! ## Helper lemmas about the visible-range subscription and the engine ops -/

/-- Firing the range subscription only rewrites `savedTimeRange`,
`userHasZoomed` and the store; every other controller field is untouched. -/
theorem onVTRC_frame (tc : TradingChart) (st : Storage) (o : Option VisRange) :
    ∃ s u st2, tc.onVisibleTimeRangeChange st o =
      ({ tc with savedTimeRange := s, userHasZoomed := u }, st2) := by
  cases o with
  | none => exact ⟨tc.savedTimeRange, tc.userHasZoomed, st, rfl⟩
  | some r =>
    unfold TradingChart.onVisibleTimeRangeChange
    by_cases hf : tc.isFirstLoad <;>
      cases hk : tc.zoomPersistKey <;>
        simp [hf, hk]

/-- Firing the subscription with a definite range always records exactly that
range, and never clears an already-set `userHasZoomed`. -/
theorem onVTRC_some (tc : TradingChart) (st : Storage) (r : VisRange) :
    ∃ u st2, tc.onVisibleTimeRangeChange st (some r) =
      ({ tc with savedTimeRange := .jsRange r, userHasZoomed := u }, st2) ∧
      (tc.userHasZoomed = true → u = true) := by
  unfold TradingChart.onVisibleTimeRangeChange
  by_cases hf : tc.isFirstLoad <;> cases hk : tc.zoomPersistKey <;> simp [hf, hk]

/-- The engine applying a range to the primary surface: the view is set to
exactly that range, `savedTimeRange` records it, and `userHasZoomed` is never
cleared. -/
theorem applyMainRange_spec (tc : TradingChart) (st : Storage) (r : VisRange) :
    ∃ u st2, tc.applyMainRange st r =
      ({ tc with chart := { tc.chart with view := .ranged r },
                 savedTimeRange := .jsRange r, userHasZoomed := u }, st2) ∧
      (tc.userHasZoomed = true → u = true) := by
  obtain ⟨u, st2, h, hu⟩ :=
    onVTRC_some { tc with chart := { tc.chart with view := .ranged r } } st r
  exact ⟨u, st2, h, hu⟩

/-- `updateIndicators` writes each overlay series exactly when its filtered
series is non-empty, and keeps the previous data otherwise. -/
theorem updateIndicators_fields (tc : TradingChart) (cs : List Candle) :
    (tc.updateIndicators cs).ema9Series =
      (if (overlaySeries (fun c => c.ema_9) cs).isEmpty then tc.ema9Series
       else overlaySeries (fun c => c.ema_9) cs) ∧
    (tc.updateIndicators cs).ema21Series =
      (if (overlaySeries (fun c => c.ema_21) cs).isEmpty then tc.ema21Series
       else overlaySeries (fun c => c.ema_21) cs) ∧
    (tc.updateIndicators cs).vwapSeries =
      (if (overlaySeries (fun c => c.vwap) cs).isEmpty then tc.vwapSeries
       else overlaySeries (fun c => c.vwap) cs) ∧
    (tc.updateIndicators cs).bbUpperSeries =
      (if (overlaySeries (fun c => c.bb_upper) cs).isEmpty then tc.bbUpperSeries
       else overlaySeries (fun c => c.bb_upper) cs) ∧
    (tc.updateIndicators cs).bbMiddleSeries =
      (if (overlaySeries (fun c => c.bb_middle) cs).isEmpty then tc.bbMiddleSeries
       else overlaySeries (fun c => c.bb_middle) cs) ∧
    (tc.updateIndicators cs).bbLowerSeries =
      (if (overlaySeries (fun c => c.bb_lower) cs).isEmpty then tc.bbLowerSeries
       else overlaySeries (fun c => c.bb_lower) cs) ∧
    (tc.updateIndicators cs).rsiSeries =
      (if (overlaySeries (fun c => c.rsi) cs).isEmpty then tc.rsiSeries
       else overlaySeries (fun c => c.rsi) cs) := by
  refine ⟨?_, ?_, ?_, ?_, ?_, ?_, ?_⟩ <;>
    simp only [TradingChart.updateIndicators,
      apply_ite TradingChart.ema9Series, apply_ite TradingChart.ema21Series,
      apply_ite TradingChart.vwapSeries, apply_ite TradingChart.bbUpperSeries,
      apply_ite TradingChart.bbMiddleSeries, apply_ite TradingChart.bbLowerSeries,
      apply_ite TradingChart.rsiSeries, ite_self]

/-- `updateIndicators` touches only the seven overlay series. -/
theorem updateIndicators_frame (tc : TradingChart) (cs : List Candle) :
    (tc.updateIndicators cs).chart = tc.chart ∧
    (tc.updateIndicators cs).rsiChart = tc.rsiChart ∧
    (tc.updateIndicators cs).candlestickSeries = tc.candlestickSeries ∧
    (tc.updateIndicators cs).volumeSeries = tc.volumeSeries ∧
    (tc.updateIndicators cs).isFirstLoad = tc.isFirstLoad ∧
    (tc.updateIndicators cs).savedTimeRange = tc.savedTimeRange ∧
    (tc.updateIndicators cs).userHasZoomed = tc.userHasZoomed ∧
    (tc.updateIndicators cs).zoomPersistKey = tc.zoomPersistKey := by
  refine ⟨?_, ?_, ?_, ?_, ?_, ?_, ?_, ?_⟩ <;>
    simp only [TradingChart.updateIndicators,
      apply_ite TradingChart.chart, apply_ite TradingChart.rsiChart,
      apply_ite TradingChart.candlestickSeries, apply_ite TradingChart.volumeSeries,
      apply_ite TradingChart.isFirstLoad, apply_ite TradingChart.savedTimeRange,
      apply_ite TradingChart.userHasZoomed, apply_ite TradingChart.zoomPersistKey,
      ite_self]

/-- The reapply branch of the view policy: in `USER_ZOOMED` with a well-formed
saved range, `updateData`'s policy sets both surfaces to exactly that range
and leaves the flags as they were. -/
theorem applyViewPolicy_reapply (tc : TradingChart) (st : Storage) (r : VisRange)
    (hz : tc.userHasZoomed = true) (hs : tc.savedTimeRange = .jsRange r) :
    ∃ st2, tc.applyViewPolicy st =
      ({ tc with chart := { tc.chart with view := .ranged r },
                 rsiChart := { tc.rsiChart with view := .ranged r },
                 savedTimeRange := .jsRange r, userHasZoomed := true }, st2) := by
  obtain ⟨u, st2, hmain, humono⟩ := applyMainRange_spec tc st r
  have hut : u = true := humono hz
  subst hut
  refine ⟨st2, ?_⟩
  simp only [TradingChart.applyViewPolicy, hz, hs, JSVal.truthy, Bool.and_self,
    if_true, TradingChart.setMainVisibleRange, hmain, TradingChart.setRsiVisibleRange]

/-- The first-load branch of the view policy: with no user zoom yet and
`isFirstLoad` set, both surfaces are fitted and the state moves to `DEFAULT`
(`isFirstLoad = false`, `userHasZoomed` still `false`). -/
theorem applyViewPolicy_firstLoad (tc : TradingChart) (st : Storage)
    (hz : tc.userHasZoomed = false) (hf : tc.isFirstLoad = true) :
    ∃ s st2, tc.applyViewPolicy st =
      ({ tc with chart := { tc.chart with view := .fitted },
                 rsiChart := { tc.rsiChart with view := .fitted },
                 savedTimeRange := s, userHasZoomed := false,
                 isFirstLoad := false }, st2) := by
  simp only [TradingChart.applyViewPolicy, hz, Bool.false_and, Bool.false_eq_true,
    if_false, hf, if_true, TradingChart.mainFitContent, TradingChart.rsiFitContent]
  rcases hext : fullExtent tc.candlestickSeries with _ | r <;>
    simp only [TradingChart.onVisibleTimeRangeChange, hext, hf, if_true] <;>
      cases hk : tc.zoomPersistKey <;> simp [hk, hz]

/-- The `DEFAULT` branch of the view policy: nothing happens. -/
theorem applyViewPolicy_default (tc : TradingChart) (st : Storage)
    (hz : tc.userHasZoomed = false) (hf : tc.isFirstLoad = false) :
    tc.applyViewPolicy st = (tc, st) := by
  simp [TradingChart.applyViewPolicy, hz, hf]

/-- Whatever branch the view policy takes, it only rewrites the two surface
handles and the three view flags — never a rendered series. -/
theorem applyViewPolicy_series (tc : TradingChart) (st : Storage) :
    (tc.applyViewPolicy st).1.ema9Series = tc.ema9Series ∧
    (tc.applyViewPolicy st).1.ema21Series = tc.ema21Series ∧
    (tc.applyViewPolicy st).1.vwapSeries = tc.vwapSeries ∧
    (tc.applyViewPolicy st).1.bbUpperSeries = tc.bbUpperSeries ∧
    (tc.applyViewPolicy st).1.bbMiddleSeries = tc.bbMiddleSeries ∧
    (tc.applyViewPolicy st).1.bbLowerSeries = tc.bbLowerSeries ∧
    (tc.applyViewPolicy st).1.rsiSeries = tc.rsiSeries ∧
    (tc.applyViewPolicy st).1.candlestickSeries = tc.candlestickSeries := by
  cases hu : tc.userHasZoomed <;> cases hf2 : tc.isFirstLoad <;>
    rcases hs : tc.savedTimeRange with _ | r <;>
      rcases hext : fullExtent tc.candlestickSeries with _ | er <;>
        cases hk : tc.zoomPersistKey <;>
          simp [TradingChart.applyViewPolicy, TradingChart.setMainVisibleRange,
            TradingChart.setRsiVisibleRange, TradingChart.applyMainRange,
            TradingChart.mainFitContent, TradingChart.rsiFitContent,
            TradingChart.onVisibleTimeRangeChange, JSVal.truthy,
            hu, hf2, hs, hext, hk]

/-- An effective `zoomIn` sets the logical window to `max 20 (width * 0.7)`
bars recentered on the previous midpoint. -/
theorem zoomIn_view (tc : TradingChart) (st : Storage) (r : VisRange)
    (hr : tc.getVisibleLogicalRange = some r) (hgt : ¬(r.to_ - r.from_ ≤ 20)) :
    (tc.zoomIn st).1.getVisibleLogicalRange = some
      { dom := .logical,
        from_ := (r.from_ + r.to_) / 2 - max 20 ((r.to_ - r.from_) * (7 / 10)) / 2,
        to_ := (r.from_ + r.to_) / 2 + max 20 ((r.to_ - r.from_) * (7 / 10)) / 2 } := by
  obtain ⟨u2, st2, hmain, _⟩ := applyMainRange_spec tc st
    { dom := .logical,
      from_ := (r.from_ + r.to_) / 2 - max 20 ((r.to_ - r.from_) * (7 / 10)) / 2,
      to_ := (r.from_ + r.to_) / 2 + max 20 ((r.to_ - r.from_) * (7 / 10)) / 2 }
  simp only [TradingChart.zoomIn, hr]
  rw [if_neg hgt, hmain]
  simp [TradingChart.getVisibleLogicalRange]

/-- `zoomOut` sets the logical window to `min (width * 1.4) 5000` bars
recentered on the previous midpoint. -/
theorem zoomOut_view (tc : TradingChart) (st : Storage) (r : VisRange)
    (hr : tc.getVisibleLogicalRange = some r) :
    (tc.zoomOut st).1.getVisibleLogicalRange = some
      { dom := .logical,
        from_ := (r.from_ + r.to_) / 2 - min ((r.to_ - r.from_) * (14 / 10)) 5000 / 2,
        to_ := (r.from_ + r.to_) / 2 + min ((r.to_ - r.from_) * (14 / 10)) 5000 / 2 } := by
  obtain ⟨u2, st2, hmain, _⟩ := applyMainRange_spec tc st
    { dom := .logical,
      from_ := (r.from_ + r.to_) / 2 - min ((r.to_ - r.from_) * (14 / 10)) 5000 / 2,
      to_ := (r.from_ + r.to_) / 2 + min ((r.to_ - r.from_) * (14 / 10)) 5000 / 2 }
  simp only [TradingChart.zoomOut, hr]
  rw [hmain]
  simp [TradingChart.getVisibleLogicalRange]

/-- An effective `zoomIn` also records the new range in `savedTimeRange`
(via the fired subscription) and raises `userHasZoomed`. -/
theorem zoomIn_state (tc : TradingChart) (st : Storage) (r : VisRange)
    (hr : tc.getVisibleLogicalRange = some r) (hgt : ¬(r.to_ - r.from_ ≤ 20)) :
    (tc.zoomIn st).1.userHasZoomed = true ∧
    (tc.zoomIn st).1.savedTimeRange = .jsRange
      { dom := .logical,
        from_ := (r.from_ + r.to_) / 2 - max 20 ((r.to_ - r.from_) * (7 / 10)) / 2,
        to_ := (r.from_ + r.to_) / 2 + max 20 ((r.to_ - r.from_) * (7 / 10)) / 2 } ∧
    (tc.zoomIn st).1.chart.view = .ranged
      { dom := .logical,
        from_ := (r.from_ + r.to_) / 2 - max 20 ((r.to_ - r.from_) * (7 / 10)) / 2,
        to_ := (r.from_ + r.to_) / 2 + max 20 ((r.to_ - r.from_) * (7 / 10)) / 2 } := by
  obtain ⟨u2, st2, hmain, _⟩ := applyMainRange_spec tc st
    { dom := .logical,
      from_ := (r.from_ + r.to_) / 2 - max 20 ((r.to_ - r.from_) * (7 / 10)) / 2,
      to_ := (r.from_ + r.to_) / 2 + max 20 ((r.to_ - r.from_) * (7 / 10)) / 2 }
  simp only [TradingChart.zoomIn, hr]
  rw [if_neg hgt, hmain]
  exact ⟨rfl, rfl, rfl⟩

/-- `zoomIn` keeps a 20..5000-bar window inside the bounds. -/
theorem zoomIn_widthOk (tc : TradingChart) (st : Storage)
    (h : logicalWidthOk tc = true) : logicalWidthOk (tc.zoomIn st).1 = true := by
  rcases hr : tc.getVisibleLogicalRange with _ | r
  · simpa [TradingChart.zoomIn, hr] using h
  · have h2 : 20 ≤ r.to_ - r.from_ ∧ r.to_ - r.from_ ≤ 5000 := by
      simpa [logicalWidthOk, hr] using h
    obtain ⟨hw1, hw2⟩ := h2
    by_cases hle : r.to_ - r.from_ ≤ 20
    · simpa [TradingChart.zoomIn, hr, hle] using h
    · have hv := zoomIn_view tc st r hr hle
      rw [logicalWidthOk, hv]
      have hsub : (r.from_ + r.to_) / 2 + max 20 ((r.to_ - r.from_) * (7 / 10)) / 2 -
          ((r.from_ + r.to_) / 2 - max 20 ((r.to_ - r.from_) * (7 / 10)) / 2) =
          max 20 ((r.to_ - r.from_) * (7 / 10)) := by ring
      simp only [hsub, Bool.and_eq_true, decide_eq_true_eq]
      refine ⟨le_max_left _ _, max_le (by norm_num) (by linarith)⟩

/-- `zoomOut` keeps a 20..5000-bar window inside the bounds. -/
theorem zoomOut_widthOk (tc : TradingChart) (st : Storage)
    (h : logicalWidthOk tc = true) : logicalWidthOk (tc.zoomOut st).1 = true := by
  rcases hr : tc.getVisibleLogicalRange with _ | r
  · simpa [TradingChart.zoomOut, hr] using h
  · have h2 : 20 ≤ r.to_ - r.from_ ∧ r.to_ - r.from_ ≤ 5000 := by
      simpa [logicalWidthOk, hr] using h
    obtain ⟨hw1, hw2⟩ := h2
    have hv := zoomOut_view tc st r hr
    rw [logicalWidthOk, hv]
    have hsub : (r.from_ + r.to_) / 2 + min ((r.to_ - r.from_) * (14 / 10)) 5000 / 2 -
        ((r.from_ + r.to_) / 2 - min ((r.to_ - r.from_) * (14 / 10)) 5000 / 2) =
        min ((r.to_ - r.from_) * (14 / 10)) 5000 := by ring
    simp only [hsub, Bool.and_eq_true, decide_eq_true_eq]
    refine ⟨le_min (by linarith) (by norm_num), min_le_right _ _⟩

/-- Any finite `zoomIn`/`zoomOut` sequence keeps an in-bounds window in
bounds. -/
theorem applyZoomOps_widthOk (ops : List ZoomOp) (p : TradingChart × Storage)
    (h : logicalWidthOk p.1 = true) :
    logicalWidthOk (applyZoomOps ops p).1 = true := by
  induction ops generalizing p with
  | nil => exact h
  | cons op rest ih =>
    show logicalWidthOk (applyZoomOps rest (applyZoomOp op p)).1 = true
    apply ih
    cases op
    · exact zoomIn_widthOk p.1 p.2 h
    · exact zoomOut_widthOk p.1 p.2 h

/-- A non-empty list is not `isEmpty`. -/
theorem isEmpty_false_of_ne_nil {α : Type} {l : List α} (h : l ≠ []) :
    l.isEmpty = false := by
  cases l with
  | nil => exact absurd rfl h
  | cons a t => rfl

/-- `updateData` in `USER_ZOOMED` with a well-formed saved range: both
surfaces are set back to the saved range, the flags survive unchanged. -/
theorem updateData_reapply_helper (tc : TradingChart) (st : Storage)
    (cs : List Candle) (r : VisRange) (hz : tc.userHasZoomed = true)
    (hs : tc.savedTimeRange = .jsRange r) (hne : cs ≠ []) :
    (tc.updateData st cs).1.chart.view = .ranged r ∧
    (tc.updateData st cs).1.rsiChart.view = .ranged r ∧
    (tc.updateData st cs).1.userHasZoomed = true ∧
    (tc.updateData st cs).1.savedTimeRange = .jsRange r ∧
    (tc.updateData st cs).1.isFirstLoad = tc.isFirstLoad := by
  cases cs with
  | nil => exact absurd rfl hne
  | cons a l =>
    have hframe := updateIndicators_frame (tc.setPriceAndVolume (a :: l)) (a :: l)
    have hz2 : ((tc.setPriceAndVolume (a :: l)).updateIndicators (a :: l)).userHasZoomed = true := by
      rw [hframe.2.2.2.2.2.2.1]; exact hz
    have hs2 : ((tc.setPriceAndVolume (a :: l)).updateIndicators (a :: l)).savedTimeRange =
        .jsRange r := by
      rw [hframe.2.2.2.2.2.1]; exact hs
    obtain ⟨st2, hpol⟩ :=
      applyViewPolicy_reapply ((tc.setPriceAndVolume (a :: l)).updateIndicators (a :: l)) st r hz2 hs2
    have hupd : tc.updateData st (a :: l) =
        ((tc.setPriceAndVolume (a :: l)).updateIndicators (a :: l)).applyViewPolicy st := rfl
    rw [hupd, hpol]
    refine ⟨rfl, rfl, rfl, rfl, ?_⟩
    exact hframe.2.2.2.2.1

/-- `updateData` in `DEFAULT` (no user zoom, not first load): both surface
handles, the flags and the store come out unchanged. -/
theorem updateData_default_helper (tc : TradingChart) (st : Storage)
    (cs : List Candle) (hz : tc.userHasZoomed = false)
    (hf : tc.isFirstLoad = false) (hne : cs ≠ []) :
    (tc.updateData st cs).1.chart = tc.chart ∧
    (tc.updateData st cs).1.rsiChart = tc.rsiChart ∧
    (tc.updateData st cs).1.isFirstLoad = false ∧
    (tc.updateData st cs).1.userHasZoomed = false ∧
    (tc.updateData st cs).2 = st := by
  cases cs with
  | nil => exact absurd rfl hne
  | cons a l =>
    have hframe := updateIndicators_frame (tc.setPriceAndVolume (a :: l)) (a :: l)
    have hz2 : ((tc.setPriceAndVolume (a :: l)).updateIndicators (a :: l)).userHasZoomed = false := by
      rw [hframe.2.2.2.2.2.2.1]; exact hz
    have hf2 : ((tc.setPriceAndVolume (a :: l)).updateIndicators (a :: l)).isFirstLoad = false := by
      rw [hframe.2.2.2.2.1]; exact hf
    have hpol :=
      applyViewPolicy_default ((tc.setPriceAndVolume (a :: l)).updateIndicators (a :: l)) st hz2 hf2
    have hupd : tc.updateData st (a :: l) =
        ((tc.setPriceAndVolume (a :: l)).updateIndicators (a :: l)).applyViewPolicy st := rfl
    rw [hupd, hpol]
    exact ⟨hframe.1, hframe.2.1, hf2, hz2, rfl⟩

/-- The first `updateData` with no user zoom: both surfaces end fitted and
the state moves to `DEFAULT`. -/
theorem updateData_firstLoad_helper (tc : TradingChart) (st : Storage)
    (cs : List Candle) (hz : tc.userHasZoomed = false)
    (hf : tc.isFirstLoad = true) (hne : cs ≠ []) :
    (tc.updateData st cs).1.chart.view = .fitted ∧
    (tc.updateData st cs).1.rsiChart.view = .fitted ∧
    (tc.updateData st cs).1.isFirstLoad = false ∧
    (tc.updateData st cs).1.userHasZoomed = false := by
  cases cs with
  | nil => exact absurd rfl hne
  | cons a l =>
    have hframe := updateIndicators_frame (tc.setPriceAndVolume (a :: l)) (a :: l)
    have hz2 : ((tc.setPriceAndVolume (a :: l)).updateIndicators (a :: l)).userHasZoomed = false := by
      rw [hframe.2.2.2.2.2.2.1]; exact hz
    have hf2 : ((tc.setPriceAndVolume (a :: l)).updateIndicators (a :: l)).isFirstLoad = true := by
      rw [hframe.2.2.2.2.1]; exact hf
    obtain ⟨s, st2, hpol⟩ :=
      applyViewPolicy_firstLoad ((tc.setPriceAndVolume (a :: l)).updateIndicators (a :: l)) st hz2 hf2
    have hupd : tc.updateData st (a :: l) =
        ((tc.setPriceAndVolume (a :: l)).updateIndicators (a :: l)).applyViewPolicy st := rfl
    rw [hupd, hpol]
    exact ⟨rfl, rfl, rfl, rfl⟩

/-- The filter-then-map overlay derivation is the order-preserving
`filterMap` over defined fields. -/
theorem filter_map_eq_filterMap (f : Candle → Option Rat) (cs : List Candle) :
    (cs.filter fun c => (f c).isSome).map
        (fun c => ({ time := c.time, value := (f c).getD 0 } : IndicatorData)) =
      cs.filterMap fun c => (f c).map fun v =>
        ({ time := c.time, value := v } : IndicatorData) := by
  induction cs with
  | nil => rfl
  | cons a l ih =>
    rcases hfc : f a with _ | v <;>
      simp [List.filter_cons, List.filterMap_cons, hfc, ih]

/-- The 100-bar gesture window sits inside the 20..5000 clamp bounds. -/
theorem zoomWitnessState_widthOk : logicalWidthOk zoomWitnessState = true := by
  have hr : zoomWitnessState.getVisibleLogicalRange =
      some { dom := .logical, from_ := 0, to_ := 100 } := by decide
  simp only [logicalWidthOk, hr]
  have e : (100 : Rat) - 0 = 100 := by norm_num
  rw [e]
  decide

/-! ## Claims -/

/-- C1: for every controller in state `USER_ZOOMED` with a saved range, every
`updateData` with a non-empty candle sequence reapplies the saved range to
both the primary and companion surfaces and leaves the state and saved range
unchanged; in particular, after an effective `zoomIn`, a subsequent
`updateData` with new candles preserves the exact previously-set logical
range, so a silent background refresh never resets an established zoom. -/
theorem updateData_preserves_user_zoom :
    (∀ (tc : TradingChart) (st : Storage) (cs : List Candle) (r : VisRange),
       tc.userHasZoomed = true → tc.savedTimeRange = .jsRange r → cs ≠ [] →
       (tc.updateData st cs).1.chart.view = .ranged r ∧
       (tc.updateData st cs).1.rsiChart.view = .ranged r ∧
       (tc.updateData st cs).1.userHasZoomed = tc.userHasZoomed ∧
       (tc.updateData st cs).1.savedTimeRange = tc.savedTimeRange ∧
       (tc.updateData st cs).1.isFirstLoad = tc.isFirstLoad) ∧
    (∀ (tc : TradingChart) (st : Storage) (cs : List Candle) (r : VisRange),
       tc.getVisibleLogicalRange = some r → ¬(r.to_ - r.from_ ≤ 20) → cs ≠ [] →
       ((tc.zoomIn st).1.updateData (tc.zoomIn st).2 cs).1.chart.view =
         (tc.zoomIn st).1.chart.view ∧
       ((tc.zoomIn st).1.updateData (tc.zoomIn st).2 cs).1.getVisibleLogicalRange =
         (tc.zoomIn st).1.getVisibleLogicalRange) := by
  constructor
  · intro tc st cs r hz hs hne
    obtain ⟨h1, h2, h3, h4, h5⟩ := updateData_reapply_helper tc st cs r hz hs hne
    exact ⟨h1, h2, by rw [h3, hz], by rw [h4, hs], h5⟩
  · intro tc st cs r hr hgt hne
    obtain ⟨hu, hsv, hcv⟩ := zoomIn_state tc st r hr hgt
    have h := updateData_reapply_helper (tc.zoomIn st).1 (tc.zoomIn st).2 cs
      { dom := .logical,
        from_ := (r.from_ + r.to_) / 2 - max 20 ((r.to_ - r.from_) * (7 / 10)) / 2,
        to_ := (r.from_ + r.to_) / 2 + max 20 ((r.to_ - r.from_) * (7 / 10)) / 2 }
      hu hsv hne
    refine ⟨h.1.trans hcv.symm, ?_⟩
    simp [TradingChart.getVisibleLogicalRange, h.1, hcv]

/-- C1 witness: a `USER_ZOOMED` controller holding the saved range
1000..2000 keeps it across a refresh. -/
theorem updateData_preserves_user_zoom_witness :
    (userZoomedState.updateData emptyStorage [sampleCandle 1500]).1.chart.view =
      .ranged { dom := .time, from_ := 1000, to_ := 2000 } :=
  (updateData_preserves_user_zoom.1 userZoomedState emptyStorage [sampleCandle 1500]
    { dom := .time, from_ := 1000, to_ := 2000 } rfl rfl (by decide)).1

/-- C2 counterexample: the clamp bounds do not hold from an arbitrary
starting window.  From a 10000-bar window (reachable by wheel zoom, which the
clamps do not govern) a single `zoomIn` lands on a 7000-bar window, above the
claimed 5000-bar ceiling; from a 10-bar window a single `zoomOut` lands on a
14-bar window, below the claimed 20-bar floor. -/
theorem zoom_clamp_counterexample :
    (wideZoomState.zoomIn emptyStorage).1.getVisibleLogicalRange =
      some { dom := .logical, from_ := 1500, to_ := 8500 } ∧
    logicalWidthOk (wideZoomState.zoomIn emptyStorage).1 = false ∧
    (narrowZoomState.zoomOut emptyStorage).1.getVisibleLogicalRange =
      some { dom := .logical, from_ := -2, to_ := 12 } ∧
    logicalWidthOk (narrowZoomState.zoomOut emptyStorage).1 = false := by
  have hrw : wideZoomState.getVisibleLogicalRange =
      some { dom := .logical, from_ := 0, to_ := 10000 } := by decide
  have hgtw : ¬((10000 : Rat) - 0 ≤ 20) := by norm_num
  have hvw := zoomIn_view wideZoomState emptyStorage
    { dom := .logical, from_ := 0, to_ := 10000 } hrw hgtw
  norm_num at hvw
  have hrn : narrowZoomState.getVisibleLogicalRange =
      some { dom := .logical, from_ := 0, to_ := 10 } := by decide
  have hvn := zoomOut_view narrowZoomState emptyStorage
    { dom := .logical, from_ := 0, to_ := 10 } hrn
  norm_num at hvn
  refine ⟨hvw, ?_, hvn, ?_⟩
  · simp only [logicalWidthOk, hvw]
    have e3 : (8500 : Rat) - 1500 = 7000 := by norm_num
    rw [e3]
    decide
  · simp only [logicalWidthOk, hvn]
    have e4 : (12 : Rat) - (-2) = 14 := by norm_num
    rw [e4]
    decide

/-- C2 (amended): provided the visible logical width starts within the
20..5000-bar bounds, every finite sequence of `zoomIn`/`zoomOut` calls keeps
it within those bounds; an effective `zoomIn` sets the width to
`max 20 (width * 0.7)` recentered on the previous midpoint, and `zoomOut`
sets it to `min (width * 1.4) 5000` recentered. -/
theorem zoom_width_invariant :
    (∀ (p : TradingChart × Storage) (ops : List ZoomOp),
       logicalWidthOk p.1 = true → logicalWidthOk (applyZoomOps ops p).1 = true) ∧
    (∀ (tc : TradingChart) (st : Storage) (r : VisRange),
       tc.getVisibleLogicalRange = some r → ¬(r.to_ - r.from_ ≤ 20) →
       (tc.zoomIn st).1.getVisibleLogicalRange = some
         { dom := .logical,
           from_ := (r.from_ + r.to_) / 2 - max 20 ((r.to_ - r.from_) * (7 / 10)) / 2,
           to_ := (r.from_ + r.to_) / 2 + max 20 ((r.to_ - r.from_) * (7 / 10)) / 2 }) ∧
    (∀ (tc : TradingChart) (st : Storage) (r : VisRange),
       tc.getVisibleLogicalRange = some r →
       (tc.zoomOut st).1.getVisibleLogicalRange = some
         { dom := .logical,
           from_ := (r.from_ + r.to_) / 2 - min ((r.to_ - r.from_) * (14 / 10)) 5000 / 2,
           to_ := (r.from_ + r.to_) / 2 + min ((r.to_ - r.from_) * (14 / 10)) 5000 / 2 }) :=
  ⟨fun p ops h => applyZoomOps_widthOk ops p h,
   fun tc st r hr hgt => zoomIn_view tc st r hr hgt,
   fun tc st r hr => zoomOut_view tc st r hr⟩

/-- C2 witness: a 100-bar window stays within bounds across a concrete
`zoomIn`/`zoomOut`/`zoomIn` sequence. -/
theorem zoom_width_invariant_witness :
    logicalWidthOk (applyZoomOps [.zin, .zout, .zin]
      (zoomWitnessState, emptyStorage)).1 = true :=
  zoom_width_invariant.1 (zoomWitnessState, emptyStorage) [.zin, .zout, .zin]
    zoomWitnessState_widthOk

/-- C3: `setZoomPersistenceKey` applies a stored range to both surfaces and
sets `USER_ZOOMED`; with no stored entry only the active key changes; the
spec's `AAPL:1d:candlestick` example restores 1000..2000 on both surfaces. -/
theorem setZoomPersistenceKey_restores :
    (∀ (tc : TradingChart) (st : Storage) (key : String) (r : VisRange),
       st ("zoom:" ++ key) = some (.val (.jsRange r)) →
       (tc.setZoomPersistenceKey st key).1.chart.view = .ranged r ∧
       (tc.setZoomPersistenceKey st key).1.rsiChart.view = .ranged r ∧
       (tc.setZoomPersistenceKey st key).1.userHasZoomed = true ∧
       (tc.setZoomPersistenceKey st key).1.savedTimeRange = .jsRange r) ∧
    (∀ (tc : TradingChart) (st : Storage) (key : String),
       st ("zoom:" ++ key) = none →
       (tc.setZoomPersistenceKey st key).1 = { tc with zoomPersistKey := some key } ∧
       (tc.setZoomPersistenceKey st key).2 = st) ∧
    ((TradingChart.init.setZoomPersistenceKey exampleStorage
        "AAPL:1d:candlestick").1.chart.view =
       .ranged { dom := .time, from_ := 1000, to_ := 2000 } ∧
     (TradingChart.init.setZoomPersistenceKey exampleStorage
        "AAPL:1d:candlestick").1.rsiChart.view =
       .ranged { dom := .time, from_ := 1000, to_ := 2000 } ∧
     (TradingChart.init.setZoomPersistenceKey exampleStorage
        "AAPL:1d:candlestick").1.userHasZoomed = true) := by
  refine ⟨?_, ?_, by decide⟩
  · intro tc st key r hst
    obtain ⟨u, st2, hmain, humono⟩ := applyMainRange_spec
      { { tc with zoomPersistKey := some key } with
        savedTimeRange := .jsRange r, userHasZoomed := true } st r
    have hu : u = true := humono rfl
    subst hu
    simp only [TradingChart.setZoomPersistenceKey, hst,
      TradingChart.setMainVisibleRange, hmain, TradingChart.setRsiVisibleRange]
    refine ⟨?_, ?_, ?_, ?_⟩ <;> first | rfl | trivial
  · intro tc st key hst
    simp only [TradingChart.setZoomPersistenceKey, hst]
    refine ⟨?_, ?_⟩ <;> first | rfl | trivial

/-- C3 witness: the spec's store example ends `USER_ZOOMED`. -/
theorem setZoomPersistenceKey_restores_witness :
    (TradingChart.init.setZoomPersistenceKey exampleStorage
      "AAPL:1d:candlestick").1.userHasZoomed = true :=
  (setZoomPersistenceKey_restores.1 TradingChart.init exampleStorage
    "AAPL:1d:candlestick" { dom := .time, from_ := 1000, to_ := 2000 }
    (by decide)).2.2.1

/-- C4 (the code contradicts the claimed round-trip): `fitContent` does call
`removeItem`, but fitting the primary surface fires the very range
subscription the controller installed; no longer in first load, that handler
immediately re-persists the fitted extent under the active key and sets
`userHasZoomed` back to `true`, so a fresh controller restoring the same key
finds an entry and restores a range as `USER_ZOOMED` instead of finding
nothing. -/
theorem fitContent_repersists_entry :
    fitDemoFit.2 "zoom:AAPL:1d:candlestick" =
      some (.val (.jsRange { dom := .time, from_ := 1000, to_ := 2000 })) ∧
    fitDemoFit.1.userHasZoomed = true ∧
    (TradingChart.init.setZoomPersistenceKey fitDemoFit.2
       "AAPL:1d:candlestick").1.savedTimeRange =
      .jsRange { dom := .time, from_ := 1000, to_ := 2000 } ∧
    (TradingChart.init.setZoomPersistenceKey fitDemoFit.2
       "AAPL:1d:candlestick").1.userHasZoomed = true := by
  decide

/-- C5 counterexample: the crosshair handlers carry no tag of
bridge-originated positions.  When the engine re-fires a move event on the
companion pane for the position the bridge itself just set there (time 100,
x 42), the companion-pane handler forwards it straight back to the primary
pane instead of ignoring it. -/
theorem crosshair_echo_forwarded_back :
    crosshairMoveHandler .main { time := some 100, pointX := some 42 } =
      .setPosition .rsi 42 0 100 ∧
    crosshairMoveHandler .rsi { time := some 100, pointX := some 42 } =
      .setPosition .main 42 0 100 ∧
    crosshairMoveHandler .rsi { time := some 100, pointX := some 42 } ≠
      .ignore := by
  decide

/-- C5 (amended): the bridge is stateless and forwards unconditionally: every
crosshair event with a defined time on either pane — including a re-fired
event for a position the bridge itself set — is forwarded to the other pane,
and an event with no time clears the other pane's crosshair.  No
self-originated tag exists; echo suppression, if any, must come from the
rendering engine. -/
theorem crosshair_bridge_forwards_all (p : Pane) (t : Rat) (x : Option Rat) :
    crosshairMoveHandler p { time := some t, pointX := x } =
      .setPosition p.other (x.getD 0) 0 t ∧
    crosshairMoveHandler p { time := none, pointX := x } =
      .clearPosition p.other :=
  ⟨rfl, rfl⟩

/-- C6 (refuting idempotent destroy in candlestick mode):
`TradingChart.destroy` has no try/catch, so the second call hits the
engine's disposed-object fault and propagates it, while `LineChart.destroy`
catches the same fault and is idempotent. -/
theorem tradingChart_destroy_second_call_throws :
    (TradingChart.init.destroy >>= TradingChart.destroy) =
      .error "Object is disposed" ∧
    LineChart.init.destroy.destroy = LineChart.init.destroy :=
  ⟨rfl, rfl⟩

/-- C7 (refuting malformed-equals-not-found): an entry that `JSON.parse`
rejects is indeed treated like not-found, but an entry that parses to a
non-range (for example `"{}"`) is stored into `savedTimeRange` and flags
`userHasZoomed` before the engine rejects it; the corrupted state then makes
the first `updateData` take the reapply branch, fail, and return before the
first-load fit, so the controller never falls back to the fitted default
view. -/
theorem corrupt_entry_corrupts_state :
    corruptRestored.1.userHasZoomed = true ∧
    corruptRestored.1.savedTimeRange = .jsOther ∧
    TradingChart.init.userHasZoomed = false ∧
    TradingChart.init.savedTimeRange = .jsNull ∧
    corruptThenUpdate.1.isFirstLoad = true ∧
    corruptThenUpdate.1.chart.view = .unset ∧
    malformedRestored.1.userHasZoomed = false ∧
    malformedRestored.1.savedTimeRange = .jsNull ∧
    malformedRestored.1.chart.view = .unset := by
  decide

/-- C8: on a fresh controller, the first `updateData` with a non-empty
ascending candle sequence fits both surfaces to the full extent and moves the
state to `DEFAULT`; a second `updateData` in `DEFAULT` leaves the view
untouched. -/
theorem first_updateData_fits_both :
    ∀ (st : Storage) (cs cs2 : List Candle),
      cs ≠ [] → ascendingB cs = true → cs2 ≠ [] →
      ((TradingChart.init.updateData st cs).1.chart.view = .fitted ∧
       (TradingChart.init.updateData st cs).1.rsiChart.view = .fitted ∧
       (TradingChart.init.updateData st cs).1.isFirstLoad = false ∧
       (TradingChart.init.updateData st cs).1.userHasZoomed = false) ∧
      (((TradingChart.init.updateData st cs).1.updateData
          (TradingChart.init.updateData st cs).2 cs2).1.chart.view = .fitted ∧
       ((TradingChart.init.updateData st cs).1.updateData
          (TradingChart.init.updateData st cs).2 cs2).1.rsiChart.view = .fitted ∧
       ((TradingChart.init.updateData st cs).1.updateData
          (TradingChart.init.updateData st cs).2 cs2).1.isFirstLoad = false ∧
       ((TradingChart.init.updateData st cs).1.updateData
          (TradingChart.init.updateData st cs).2 cs2).1.userHasZoomed = false) := by
  intro st cs cs2 hne _hasc hne2
  obtain ⟨h1, h2, h3, h4⟩ :=
    updateData_firstLoad_helper TradingChart.init st cs rfl rfl hne
  obtain ⟨g1, g2, g3, g4, _g5⟩ :=
    updateData_default_helper (TradingChart.init.updateData st cs).1
      (TradingChart.init.updateData st cs).2 cs2 h4 h3 hne2
  exact ⟨⟨h1, h2, h3, h4⟩, by rw [g1]; exact h1, by rw [g2]; exact h2, g3, g4⟩

/-- C8 witness: two candles fit both surfaces, a third refresh leaves the
fitted view in place. -/
theorem first_updateData_fits_both_witness :
    (TradingChart.init.updateData emptyStorage
      [sampleCandle 1, sampleCandle 2]).1.chart.view = .fitted :=
  (first_updateData_fits_both emptyStorage [sampleCandle 1, sampleCandle 2]
    [sampleCandle 1, sampleCandle 2, sampleCandle 3]
    (by decide) (by decide) (by decide)).1.1

/-- C9: the overlay derivation is exactly the ordered subsequence of
`{time, value}` pairs over candles where the field is defined — an
order-preserving `filterMap` with no interpolation — and on the spec's
example the RSI overlay is exactly `[{t:2, value:55}]` while the price series
has two points. -/
theorem overlaySeries_exact_subsequence :
    (∀ (f : Candle → Option Rat) (cs : List Candle),
       overlaySeries f cs =
         cs.filterMap (fun c => (f c).map fun v =>
           ({ time := c.time, value := v } : IndicatorData)) ∧
       ((overlaySeries f cs).map IndicatorData.time).Sublist
         (cs.map Candle.time)) ∧
    overlaySeries (fun c => c.rsi) [exCandle1, exCandle2] =
      [{ time := 2, value := 55 }] ∧
    (TradingChart.init.updateData emptyStorage
      [exCandle1, exCandle2]).1.candlestickSeries.length = 2 := by
  refine ⟨fun f cs => ⟨filter_map_eq_filterMap f cs, ?_⟩, by decide, by decide⟩
  have hsub : (cs.filter fun c => (f c).isSome).Sublist cs := cs.filter_sublist
  have hsub2 := hsub.map Candle.time
  simpa [overlaySeries, List.map_map, Function.comp] using hsub2

/-- C10: on every non-empty refresh, an overlay whose filtered series is
empty keeps its previously rendered data, while an overlay whose filtered
series is non-empty is fully replaced by it. -/
theorem empty_overlay_keeps_previous_data :
    ∀ (tc : TradingChart) (st : Storage) (cs : List Candle), cs ≠ [] →
      ((overlaySeries (fun c => c.ema_9) cs = [] →
          (tc.updateData st cs).1.ema9Series = tc.ema9Series) ∧
       (overlaySeries (fun c => c.ema_9) cs ≠ [] →
          (tc.updateData st cs).1.ema9Series = overlaySeries (fun c => c.ema_9) cs)) ∧
      ((overlaySeries (fun c => c.ema_21) cs = [] →
          (tc.updateData st cs).1.ema21Series = tc.ema21Series) ∧
       (overlaySeries (fun c => c.ema_21) cs ≠ [] →
          (tc.updateData st cs).1.ema21Series = overlaySeries (fun c => c.ema_21) cs)) ∧
      ((overlaySeries (fun c => c.vwap) cs = [] →
          (tc.updateData st cs).1.vwapSeries = tc.vwapSeries) ∧
       (overlaySeries (fun c => c.vwap) cs ≠ [] →
          (tc.updateData st cs).1.vwapSeries = overlaySeries (fun c => c.vwap) cs)) ∧
      ((overlaySeries (fun c => c.bb_upper) cs = [] →
          (tc.updateData st cs).1.bbUpperSeries = tc.bbUpperSeries) ∧
       (overlaySeries (fun c => c.bb_upper) cs ≠ [] →
          (tc.updateData st cs).1.bbUpperSeries = overlaySeries (fun c => c.bb_upper) cs)) ∧
      ((overlaySeries (fun c => c.bb_middle) cs = [] →
          (tc.updateData st cs).1.bbMiddleSeries = tc.bbMiddleSeries) ∧
       (overlaySeries (fun c => c.bb_middle) cs ≠ [] →
          (tc.updateData st cs).1.bbMiddleSeries = overlaySeries (fun c => c.bb_middle) cs)) ∧
      ((overlaySeries (fun c => c.bb_lower) cs = [] →
          (tc.updateData st cs).1.bbLowerSeries = tc.bbLowerSeries) ∧
       (overlaySeries (fun c => c.bb_lower) cs ≠ [] →
          (tc.updateData st cs).1.bbLowerSeries = overlaySeries (fun c => c.bb_lower) cs)) ∧
      ((overlaySeries (fun c => c.rsi) cs = [] →
          (tc.updateData st cs).1.rsiSeries = tc.rsiSeries) ∧
       (overlaySeries (fun c => c.rsi) cs ≠ [] →
          (tc.updateData st cs).1.rsiSeries = overlaySeries (fun c => c.rsi) cs)) := by
  intro tc st cs hne
  cases cs with
  | nil => exact absurd rfl hne
  | cons a l =>
    have hupd : tc.updateData st (a :: l) =
        ((tc.setPriceAndVolume (a :: l)).updateIndicators (a :: l)).applyViewPolicy st := rfl
    have hser := applyViewPolicy_series
      ((tc.setPriceAndVolume (a :: l)).updateIndicators (a :: l)) st
    have hfld := updateIndicators_fields (tc.setPriceAndVolume (a :: l)) (a :: l)
    rw [hupd]
    refine ⟨⟨fun hov => ?_, fun hov => ?_⟩, ⟨fun hov => ?_, fun hov => ?_⟩,
      ⟨fun hov => ?_, fun hov => ?_⟩, ⟨fun hov => ?_, fun hov => ?_⟩,
      ⟨fun hov => ?_, fun hov => ?_⟩, ⟨fun hov => ?_, fun hov => ?_⟩,
      ⟨fun hov => ?_, fun hov => ?_⟩⟩
    · rw [hser.1, hfld.1]; simp [hov, TradingChart.setPriceAndVolume]
    · rw [hser.1, hfld.1]; simp [isEmpty_false_of_ne_nil hov]
    · rw [hser.2.1, hfld.2.1]; simp [hov, TradingChart.setPriceAndVolume]
    · rw [hser.2.1, hfld.2.1]; simp [isEmpty_false_of_ne_nil hov]
    · rw [hser.2.2.1, hfld.2.2.1]; simp [hov, TradingChart.setPriceAndVolume]
    · rw [hser.2.2.1, hfld.2.2.1]; simp [isEmpty_false_of_ne_nil hov]
    · rw [hser.2.2.2.1, hfld.2.2.2.1]; simp [hov, TradingChart.setPriceAndVolume]
    · rw [hser.2.2.2.1, hfld.2.2.2.1]; simp [isEmpty_false_of_ne_nil hov]
    · rw [hser.2.2.2.2.1, hfld.2.2.2.2.1]; simp [hov, TradingChart.setPriceAndVolume]
    · rw [hser.2.2.2.2.1, hfld.2.2.2.2.1]; simp [isEmpty_false_of_ne_nil hov]
    · rw [hser.2.2.2.2.2.1, hfld.2.2.2.2.2.1]; simp [hov, TradingChart.setPriceAndVolume]
    · rw [hser.2.2.2.2.2.1, hfld.2.2.2.2.2.1]; simp [isEmpty_false_of_ne_nil hov]
    · rw [hser.2.2.2.2.2.2.1, hfld.2.2.2.2.2.2]; simp [hov, TradingChart.setPriceAndVolume]
    · rw [hser.2.2.2.2.2.2.1, hfld.2.2.2.2.2.2]; simp [isEmpty_false_of_ne_nil hov]

/-- C10 witness: a refresh whose candles carry no EMA-9 values leaves a
previously rendered EMA-9 overlay in place. -/
theorem empty_overlay_keeps_previous_data_witness :
    (presetOverlayState.updateData emptyStorage [sampleCandle 5]).1.ema9Series =
      presetOverlayState.ema9Series :=
  (empty_overlay_keeps_previous_data presetOverlayState emptyStorage
    [sampleCandle 5] (by decide)).1.1 (by decide)

end TradingApp
